import Mathlib

/-!
Shallow embedding of `src/MP2_Sources/cont_frame_pool.C`: a contiguous
physical-frame allocator with a packed 2-bit-per-frame bitmap, a first-fit
scan, forced marking, registry-routed release, and a bounded pool registry.

Machine integers are modelled as `Nat`; the one place where unsigned 64-bit
wraparound matters (`nFreeFrames -= n`, `nFreeFrames--`) uses an explicit
`% 2 ^ 64`.  The bitmap is a list of bytes; a byte read is `List.getD` with
default `0` and a byte write is `List.set`.  C `for`/`while` loops become
structural recursion on an explicit iteration count equal to the number of
iterations the C loop performs.  The fatal assertion primitive is modelled
by returning `Option`: `none` means the assertion fired.
-/

namespace MP2

/-- The three frame states of `ContFramePool::FrameState`. -/
inductive FrameState where
  | Free : FrameState
  | Used : FrameState
  | HoS : FrameState
deriving DecidableEq, Repr

/-- Modelled from the spec: `FRAME_SIZE` is declared in the missing header
`cont_frame_pool.H`; the spec fixes frames at 4096 bytes. -/
def FRAME_SIZE : Nat := 4096

/-- `2 ^ 64`, the modulus of C `unsigned long` on the target platform. -/
def U64 : Nat := 2 ^ 64

/-- C unsigned 64-bit subtraction `a - b` (wraps modulo `2 ^ 64`). -/
def u64sub (a b : Nat) : Nat := (a + (U64 - b % U64)) % U64

/-- The 2-bit encoding written by `ContFramePool::set_state`:
`Free = 00`, `Used = 01`, `HoS = 10`. -/
def stateBits : FrameState → Nat
  | FrameState.Free => 0
  | FrameState.Used => 1
  | FrameState.HoS => 2

/-- The decoder switch of `ContFramePool::get_state`: `0 ↦ Free`, `1 ↦ Used`,
`2 ↦ HoS`, default (`3`) `↦ Free`. -/
def decodeState : Nat → FrameState
  | 0 => FrameState.Free
  | 1 => FrameState.Used
  | 2 => FrameState.HoS
  | _ => FrameState.Free

/-- The raw 2-bit pattern of frame `fno` in bitmap `bm`
(`(bitmap[_frame_no / 4] & (0x3 << shift)) >> shift`). -/
def rawBits (bm : List Nat) (fno : Nat) : Nat :=
  (bm.getD (fno / 4) 0 &&& (3 <<< (fno % 4 * 2))) >>> (fno % 4 * 2)

/-- `ContFramePool::get_state` on a bare bitmap. -/
def get_state_bm (bm : List Nat) (fno : Nat) : FrameState :=
  decodeState (rawBits bm fno)

/-- `ContFramePool::set_state` on a bare bitmap: clear the 2-bit slot
(`bitmap[i] &= ~mask`, on a byte: `&&& (255 ^^^ mask)`), then OR in the
encoded state bits. -/
def set_state_bm (bm : List Nat) (fno : Nat) (s : FrameState) : List Nat :=
  bm.set (fno / 4)
    ((bm.getD (fno / 4) 0 &&& (255 ^^^ (3 <<< (fno % 4 * 2)))) |||
      (stateBits s <<< (fno % 4 * 2)))

/-- The per-pool state of class `ContFramePool`. -/
structure ContFramePool where
  base_frame_no : Nat
  nframes : Nat
  info_frame_no : Nat
  bitmap : List Nat
  nFreeFrames : Nat
deriving DecidableEq, Repr

/-- `ContFramePool::get_state` (member form). -/
def ContFramePool.get_state (p : ContFramePool) (fno : Nat) : FrameState :=
  get_state_bm p.bitmap fno

/-- The initialization loop of the constructor: `set_state(fno, Free)` for
`fno = 0, 1, ..., k-1` (in that order). -/
def initFreeLoop (bm : List Nat) : Nat → List Nat
  | 0 => bm
  | k + 1 => set_state_bm (initFreeLoop bm k) k FrameState.Free

/-- The constructor `ContFramePool::ContFramePool`.  `initMem` is the
arbitrary initial content of the bitmap storage bytes.  All `n_frames` slots
are set `Free`; when `info_frame_no = 0` (self-hosted) frame 0 is then set
`Used` (sic: the source writes `Used`, not `HoS`) and `nFreeFrames` is
decremented.  The `assert(_n_frames <= FRAME_SIZE * 4)` precondition is kept
as a hypothesis of the theorems that use construction. -/
def ContFramePool.construct (base n info : Nat) (initMem : List Nat) :
    ContFramePool :=
  let bm0 := initFreeLoop initMem n
  if info = 0 then
    { base_frame_no := base, nframes := n, info_frame_no := info,
      bitmap := set_state_bm bm0 0 FrameState.Used,
      nFreeFrames := u64sub n 1 }
  else
    { base_frame_no := base, nframes := n, info_frame_no := info,
      bitmap := bm0, nFreeFrames := n }

/-- The static registry `ContFramePool::frame_pools` (an array of 100 pool
pointers) together with `n_frame_pools`, modelled as the list of the first
`n_frame_pools` entries. -/
structure AllocState where
  frame_pools : List ContFramePool
deriving DecidableEq, Repr

/-- `ContFramePool::n_frame_pools`: the registry count. -/
def n_frame_pools (s : AllocState) : Nat := s.frame_pools.length

/-- Capacity of the static array `ContFramePool *frame_pools[100]`. -/
def registryCapacity : Nat := 100

/-- The index at which the constructor writes the new pool reference
(`frame_pools[n_frame_pools] = this`); the source performs this write with
no bounds check. -/
def registryWriteIndex (s : AllocState) : Nat := n_frame_pools s

/-- Construction including the registry append performed at the end of the
constructor (`frame_pools[n_frame_pools] = this; n_frame_pools++`), which is
unconditional in the source. -/
def constructGlobal (s : AllocState) (base n info : Nat)
    (initMem : List Nat) : AllocState :=
  { frame_pools := s.frame_pools ++ [ContFramePool.construct base n info initMem] }

/-- The loop `for (i = start; i < start + count; i++) set_state(i, Used)`
of the commit step of `get_frames` and of `mark_inaccessible`, as structural
recursion on the iteration count. -/
def markUsedLoop (bm : List Nat) (i : Nat) : Nat → List Nat
  | 0 => bm
  | count + 1 => markUsedLoop (set_state_bm bm i FrameState.Used) (i + 1) count

/-- The commit step of `ContFramePool::get_frames`: mark `hos_candidate` as
`HoS`, mark the following `n - 1` frames `Used`, and execute
`nFreeFrames -= _n_frames` (unsigned 64-bit). -/
def commitPool (p : ContFramePool) (hos_candidate n : Nat) : ContFramePool :=
  { p with
    bitmap := markUsedLoop (set_state_bm p.bitmap hos_candidate FrameState.HoS)
      (hos_candidate + 1) (n - 1),
    nFreeFrames := u64sub p.nFreeFrames n }

/-- The scan loop of `ContFramePool::get_frames`, structurally recursive on
the remaining iteration count `fuel = nframes - fno`.  The C loop increments
`free_frames` and then compares `free_frames == _n_frames`, which is
`free_frames + 1 = n` at entry to the iteration. -/
def getFramesGo (p : ContFramePool) (n hos_candidate free_frames fno : Nat) :
    Nat → Nat × ContFramePool
  | 0 => (0, p)
  | fuel + 1 =>
    if p.get_state fno = FrameState.Free then
      if free_frames + 1 = n then
        (p.base_frame_no + hos_candidate, commitPool p hos_candidate n)
      else
        getFramesGo p n hos_candidate (free_frames + 1) (fno + 1) fuel
    else
      getFramesGo p n (fno + 1) 0 (fno + 1) fuel

/-- `ContFramePool::get_frames`: first-fit scan starting at
`fno = 0, hos_candidate = 0, free_frames = 0`.  Returns the absolute head
frame number (or the sentinel `0`) together with the resulting pool state. -/
def ContFramePool.get_frames (p : ContFramePool) (n : Nat) :
    Nat × ContFramePool :=
  getFramesGo p n 0 0 0 p.nframes

/-- `ContFramePool::mark_inaccessible`: set `_base_frame_no - base_frame_no`
to `HoS` and the following `n - 1` indices to `Used`.  The source neither
checks the range nor touches `nFreeFrames`. -/
def ContFramePool.mark_inaccessible (p : ContFramePool) (base n : Nat) :
    ContFramePool :=
  { p with
    bitmap := markUsedLoop
      (set_state_bm p.bitmap (base - p.base_frame_no) FrameState.HoS)
      (base - p.base_frame_no + 1) (n - 1) }

/-- The trailing loop of `ContFramePool::release_frames`: starting one past
the head, while `frame_ind < nframes` and the state is `Used`, set the frame
`Free` and advance.  `fuel = nframes - i` iterations suffice, so the loop is
structural recursion on that count. -/
def releaseWalk (bm : List Nat) (i : Nat) : Nat → List Nat
  | 0 => bm
  | fuel + 1 =>
    if get_state_bm bm i = FrameState.Used then
      releaseWalk (set_state_bm bm i FrameState.Free) (i + 1) fuel
    else bm

/-- The registry search of `ContFramePool::release_frames`: index of the
first registered pool with
`base_frame_no <= _first_frame_no < base_frame_no + nframes`. -/
def findPoolIdx (pools : List ContFramePool) (first : Nat) : Option Nat :=
  pools.findIdx? fun p =>
    decide (p.base_frame_no ≤ first ∧ first < p.base_frame_no + p.nframes)

/-- Static `ContFramePool::release_frames`.  `none` models the assertion
primitive firing (`assert(get_state(frame_ind) == FrameState::HoS)`); when no
registered pool owns the frame the call returns with no state change.  The
source never touches `nFreeFrames` here. -/
def release_frames (s : AllocState) (first : Nat) : Option AllocState :=
  match findPoolIdx s.frame_pools first with
  | none => some s
  | some i =>
    match s.frame_pools[i]? with
    | none => some s
    | some pool =>
      let frame_ind := first - pool.base_frame_no
      if pool.get_state frame_ind = FrameState.HoS then
        some { frame_pools := (s.frame_pools.set i
          { pool with
            bitmap := releaseWalk
              (set_state_bm pool.bitmap frame_ind FrameState.Free)
              (frame_ind + 1) (pool.nframes - (frame_ind + 1)) }) }
      else none

/-- `ContFramePool::needed_info_frames`:
`n / (FRAME_SIZE * 4) + (n % (FRAME_SIZE * 4) > 0 ? 1 : 0)`. -/
def needed_info_frames (n : Nat) : Nat :=
  n / (FRAME_SIZE * 4) + (if n % (FRAME_SIZE * 4) > 0 then 1 else 0)

/-- A run of `n` contiguous `Free` frames starting at pool-local index `c`. -/
def freeRun (p : ContFramePool) (c n : Nat) : Prop :=
  c + n ≤ p.nframes ∧ ∀ j < n, p.get_state (c + j) = FrameState.Free

instance freeRunDecidable (p : ContFramePool) (c n : Nat) :
    Decidable (freeRun p c n) := by
  unfold freeRun; infer_instance

/-- The number of pool-local frame indices currently in state `Free`. -/
def countFree (p : ContFramePool) : Nat :=
  (List.range p.nframes).countP fun i => decide (p.get_state i = FrameState.Free)

/-- Concrete pool of the spec scenarios: `base = 100`, `n = 16`, external
bitmap (`info_frame = 99`) whose storage bytes start zeroed. -/
def examplePoolA : ContFramePool :=
  ContFramePool.construct 100 16 99 [0, 0, 0, 0]

/-- `examplePoolA` after `get_frames(4)` (which returns `100`). -/
def examplePoolA4 : ContFramePool := (examplePoolA.get_frames 4).2

/-- Concrete self-hosted pool of the spec scenarios: `base = 200`, `n = 8`,
`info_frame = 0`; the two bitmap bytes start as arbitrary garbage. -/
def exampleSelfHosted : ContFramePool :=
  ContFramePool.construct 200 8 0 [255, 255]

/-- A registry state already holding 100 pools. -/
def exampleFullRegistry : AllocState :=
  { frame_pools := List.replicate 100 examplePoolA }

/-! ### Bitmap codec lemmas -/

theorem byte_and_mod (b m : Nat) (hm : m < 256) : b &&& m = b % 256 &&& m := by
  have h255 : b % 256 = b &&& 255 := by
    have := Nat.and_pow_two_sub_one_eq_mod b 8
    norm_num at this
    omega
  have hm255 : 255 &&& m = m := by
    have := Nat.and_pow_two_sub_one_eq_mod m 8
    norm_num at this
    rw [Nat.and_comm]
    omega
  rw [h255, Nat.and_assoc, hm255]

set_option maxRecDepth 100000 in
theorem slotSet_get_same : ∀ b < 256, ∀ k < 4, ∀ v < 3,
    (((b &&& (255 ^^^ (3 <<< (k * 2)))) ||| (v <<< (k * 2))) &&&
      (3 <<< (k * 2))) >>> (k * 2) = v := by
  decide

set_option maxRecDepth 100000 in
theorem slotSet_get_other : ∀ b < 256, ∀ k < 4, ∀ kk < 4, k ≠ kk → ∀ v < 3,
    (((b &&& (255 ^^^ (3 <<< (k * 2)))) ||| (v <<< (k * 2))) &&&
      (3 <<< (kk * 2))) >>> (kk * 2) = (b &&& (3 <<< (kk * 2))) >>> (kk * 2) := by
  decide

theorem mask3_lt (k : Nat) (hk : k < 4) : 3 <<< (k * 2) < 256 := by
  interval_cases k <;> decide

theorem maskClear_lt (k : Nat) (hk : k < 4) : 255 ^^^ (3 <<< (k * 2)) < 256 := by
  interval_cases k <;> decide

theorem getD_set_self (l : List Nat) (i a : Nat) (h : i < l.length) :
    (l.set i a).getD i 0 = a := by
  simp [List.getD_eq_getElem?_getD, List.getElem?_set_self h]

theorem getD_set_ne (l : List Nat) (i j a : Nat) (h : i ≠ j) :
    (l.set i a).getD j 0 = l.getD j 0 := by
  simp [List.getD_eq_getElem?_getD, List.getElem?_set_ne h]

theorem set_state_bm_length (bm : List Nat) (fno : Nat) (s : FrameState) :
    (set_state_bm bm fno s).length = bm.length :=
  List.length_set bm _ _

theorem stateBits_lt (s : FrameState) : stateBits s < 3 := by
  cases s <;> simp [stateBits]

theorem rawBits_set_state (bm : List Nat) (fno : Nat) (s : FrameState)
    (h : fno / 4 < bm.length) :
    rawBits (set_state_bm bm fno s) fno = stateBits s := by
  have hk : fno % 4 < 4 := Nat.mod_lt _ (by norm_num)
  unfold rawBits set_state_bm
  rw [getD_set_self _ _ _ h]
  rw [byte_and_mod (bm.getD (fno / 4) 0) _ (maskClear_lt _ hk)]
  exact slotSet_get_same _ (Nat.mod_lt _ (by norm_num)) _ hk _ (stateBits_lt s)

theorem get_state_set_state_self (bm : List Nat) (fno : Nat) (s : FrameState)
    (h : fno / 4 < bm.length) :
    get_state_bm (set_state_bm bm fno s) fno = s := by
  unfold get_state_bm
  rw [rawBits_set_state bm fno s h]
  cases s <;> rfl

theorem rawBits_set_state_ne (bm : List Nat) (fno fno2 : Nat) (s : FrameState)
    (h : fno2 ≠ fno) :
    rawBits (set_state_bm bm fno s) fno2 = rawBits bm fno2 := by
  by_cases hb : fno2 / 4 = fno / 4
  · by_cases hlen : fno / 4 < bm.length
    · have hk : fno % 4 < 4 := Nat.mod_lt _ (by norm_num)
      have hkk : fno2 % 4 < 4 := Nat.mod_lt _ (by norm_num)
      have hkne : fno % 4 ≠ fno2 % 4 := by omega
      unfold rawBits set_state_bm
      rw [hb, getD_set_self _ _ _ hlen]
      rw [byte_and_mod (bm.getD (fno / 4) 0) _ (maskClear_lt _ hk)]
      rw [byte_and_mod (bm.getD (fno / 4) 0) _ (mask3_lt _ hkk)]
      exact slotSet_get_other _ (Nat.mod_lt _ (by norm_num)) _ hk _ hkk hkne _
        (stateBits_lt s)
    · unfold set_state_bm
      rw [List.set_eq_of_length_le (by omega)]
  · unfold rawBits set_state_bm
    rw [getD_set_ne _ _ _ _ (by omega)]

theorem get_state_set_state_ne (bm : List Nat) (fno fno2 : Nat) (s : FrameState)
    (h : fno2 ≠ fno) :
    get_state_bm (set_state_bm bm fno s) fno2 = get_state_bm bm fno2 := by
  unfold get_state_bm
  rw [rawBits_set_state_ne bm fno fno2 s h]

theorem rawBits_set_state_three (bm : List Nat) (fno fno2 : Nat) (s : FrameState) :
    rawBits (set_state_bm bm fno s) fno2 = 3 → rawBits bm fno2 = 3 := by
  by_cases hne : fno2 = fno
  · subst hne
    by_cases hlen : fno2 / 4 < bm.length
    · rw [rawBits_set_state _ _ _ hlen]
      intro h3
      exact absurd h3 (by have := stateBits_lt s; omega)
    · unfold set_state_bm
      rw [List.set_eq_of_length_le (by omega)]
      exact id
  · rw [rawBits_set_state_ne _ _ _ _ hne]
    exact id

/-! ### Loop lemmas -/

theorem markUsedLoop_length (count : Nat) : ∀ bm i,
    (markUsedLoop bm i count).length = bm.length := by
  induction count with
  | zero => intro bm i; rfl
  | succ c ih =>
    intro bm i
    simp only [markUsedLoop]
    rw [ih, set_state_bm_length]

theorem get_state_markUsedLoop_out (count : Nat) : ∀ bm i fno,
    fno < i ∨ i + count ≤ fno →
    get_state_bm (markUsedLoop bm i count) fno = get_state_bm bm fno := by
  induction count with
  | zero => intro bm i fno _; rfl
  | succ c ih =>
    intro bm i fno h
    simp only [markUsedLoop]
    rw [ih _ _ _ (by omega)]
    exact get_state_set_state_ne _ _ _ _ (by omega)

theorem get_state_markUsedLoop_in (count : Nat) : ∀ bm i fno,
    i ≤ fno → fno < i + count → i + count ≤ 4 * bm.length →
    get_state_bm (markUsedLoop bm i count) fno = FrameState.Used := by
  induction count with
  | zero => intro bm i fno h1 h2 _; omega
  | succ c ih =>
    intro bm i fno h1 h2 hlen
    simp only [markUsedLoop]
    by_cases he : fno = i
    · subst he
      rw [get_state_markUsedLoop_out c _ _ _ (Or.inl (by omega))]
      exact get_state_set_state_self _ _ _ (by omega)
    · exact ih _ _ _ (by omega) (by omega) (by rw [set_state_bm_length]; omega)

theorem initFreeLoop_length (k : Nat) (bm : List Nat) :
    (initFreeLoop bm k).length = bm.length := by
  induction k with
  | zero => rfl
  | succ k ih =>
    simp only [initFreeLoop]
    rw [set_state_bm_length, ih]

theorem get_state_initFreeLoop (k : Nat) (bm : List Nat) : ∀ j, j < k →
    k ≤ 4 * bm.length →
    get_state_bm (initFreeLoop bm k) j = FrameState.Free := by
  induction k with
  | zero => intro j hj _; omega
  | succ k ih =>
    intro j hj hk
    simp only [initFreeLoop]
    by_cases he : j = k
    · subst he
      exact get_state_set_state_self _ _ _ (by rw [initFreeLoop_length]; omega)
    · rw [get_state_set_state_ne _ _ _ _ he]
      exact ih j (by omega) (by omega)

/-! ### The first-fit scan -/

theorem u64sub_eq_sub (a b : Nat) (hb : b ≤ a) (ha : a < U64) :
    u64sub a b = a - b := by
  have hU : U64 = 18446744073709551616 := by norm_num [U64]
  unfold u64sub
  rw [hU]
  rw [hU] at ha
  omega

theorem getFramesGo_succ (p : ContFramePool) (n cand free fno f : Nat) :
    getFramesGo p n cand free fno (f + 1) =
      if p.get_state fno = FrameState.Free then
        if free + 1 = n then
          (p.base_frame_no + cand, commitPool p cand n)
        else getFramesGo p n cand (free + 1) (fno + 1) f
      else getFramesGo p n (fno + 1) 0 (fno + 1) f := rfl

theorem getFramesGo_zero_request (fuel : Nat) : ∀ p cand free fno,
    getFramesGo p 0 cand free fno fuel = (0, p) := by
  induction fuel with
  | zero => intro p cand free fno; rfl
  | succ f ih =>
    intro p cand free fno
    rw [getFramesGo_succ]
    by_cases hfree : p.get_state fno = FrameState.Free
    · rw [if_pos hfree, if_neg (by omega), ih]
    · rw [if_neg hfree, ih]

theorem getFramesGo_spec (p : ContFramePool) (n : Nat) (hn : 1 ≤ n) :
    ∀ fuel fno cand free,
    fuel = p.nframes - fno →
    cand ≤ fno → fno ≤ p.nframes → free = fno - cand → free < n →
    (∀ j, cand ≤ j → j < fno → p.get_state j = FrameState.Free) →
    (∀ s, s < cand →
      ∃ j, s ≤ j ∧ j < cand ∧ j < s + n ∧ p.get_state j ≠ FrameState.Free) →
    ((¬ ∃ c, freeRun p c n) → getFramesGo p n cand free fno fuel = (0, p)) ∧
    (∀ h : ∃ c, freeRun p c n,
      getFramesGo p n cand free fno fuel =
        (p.base_frame_no + Nat.find h, commitPool p (Nat.find h) n)) := by
  intro fuel
  induction fuel with
  | zero =>
    intro fno cand free hfuel hcf hfn hfree hflt hall hmin
    have hnorun : ¬ ∃ c, freeRun p c n := by
      rintro ⟨c, hc⟩
      obtain ⟨hc1, hc2⟩ := hc
      by_cases hcc : c < cand
      · obtain ⟨j, hsj, hjc, hjn, hnf⟩ := hmin c hcc
        have := hc2 (j - c) (by omega)
        rw [Nat.add_sub_cancel' hsj] at this
        exact hnf this
      · omega
    exact ⟨fun _ => rfl, fun h => absurd h hnorun⟩
  | succ f ih =>
    intro fno cand free hfuel hcf hfn hfree hflt hall hmin
    have hfno : fno < p.nframes := by omega
    rw [getFramesGo_succ]
    by_cases hstate : p.get_state fno = FrameState.Free
    · rw [if_pos hstate]
      by_cases hcommit : free + 1 = n
      · rw [if_pos hcommit]
        have hrun : freeRun p cand n := by
          constructor
          · omega
          · intro j hj
            by_cases hje : cand + j = fno
            · rwa [hje]
            · exact hall (cand + j) (by omega) (by omega)
        have hmin2 : ∀ m, m < cand → ¬ freeRun p m n := by
          intro m hm hfr
          obtain ⟨hm1, hm2⟩ := hfr
          obtain ⟨j, hsj, hjc, hjn, hnf⟩ := hmin m hm
          have := hm2 (j - m) (by omega)
          rw [Nat.add_sub_cancel' hsj] at this
          exact hnf this
        have hex : ∃ c, freeRun p c n := ⟨cand, hrun⟩
        refine ⟨fun hno => absurd hex hno, fun h => ?_⟩
        have hfind : Nat.find h = cand := by
          rw [Nat.find_eq_iff]
          exact ⟨hrun, hmin2⟩
        rw [hfind]
      · rw [if_neg hcommit]
        exact ih (fno + 1) cand (free + 1) (by omega) (by omega) (by omega)
          (by omega) (by omega)
          (fun j hj1 hj2 => by
            by_cases hje : j = fno
            · rwa [hje]
            · exact hall j hj1 (by omega))
          hmin
    · rw [if_neg hstate]
      exact ih (fno + 1) (fno + 1) 0 (by omega) (by omega) (by omega)
        (by omega) (by omega)
        (fun j hj1 hj2 => by omega)
        (fun s hs => by
          by_cases hsc : s < cand
          · obtain ⟨j, h1, h2, h3, h4⟩ := hmin s hsc
            exact ⟨j, h1, by omega, h3, h4⟩
          · exact ⟨fno, by omega, by omega, by omega, hstate⟩)

/-! ### Claim theorems -/

/-- C5: `get_frames(n)` (`n ≥ 1`) is a first-fit scan: when a run of `n`
contiguous `Free` frames exists it returns `base_frame + c` for the lowest
start index `c` of such a run, sets index `c` to `HoS` and indices
`c+1 .. c+n-1` to `Used`, leaves every other frame unchanged, and decrements
`n_free` by `n` (the exact 64-bit unsigned decrement; plain subtraction
whenever `n ≤ n_free < 2^64`); when no such run exists it returns the
sentinel `0` and changes no state. -/
theorem get_frames_first_fit (p : ContFramePool) (n : Nat) (hn : 1 ≤ n)
    (hlen : p.nframes ≤ 4 * p.bitmap.length) :
    ((¬ ∃ c, freeRun p c n) → p.get_frames n = (0, p)) ∧
    (∀ h : ∃ c, freeRun p c n,
      (p.get_frames n).1 = p.base_frame_no + Nat.find h ∧
      (p.get_frames n).2.get_state (Nat.find h) = FrameState.HoS ∧
      (∀ j, 1 ≤ j → j < n →
        (p.get_frames n).2.get_state (Nat.find h + j) = FrameState.Used) ∧
      (∀ j, j < Nat.find h ∨ Nat.find h + n ≤ j →
        (p.get_frames n).2.get_state j = p.get_state j) ∧
      (p.get_frames n).2.nFreeFrames = u64sub p.nFreeFrames n ∧
      (n ≤ p.nFreeFrames → p.nFreeFrames < U64 →
        (p.get_frames n).2.nFreeFrames = p.nFreeFrames - n)) := by
  obtain ⟨h0, h1⟩ := getFramesGo_spec p n hn p.nframes 0 0 0 (by omega)
    (by omega) (by omega) (by omega) (by omega)
    (fun j hj1 hj2 => absurd hj2 (Nat.not_lt_zero j))
    (fun s hs => absurd hs (Nat.not_lt_zero s))
  constructor
  · intro hno
    exact h0 hno
  · intro h
    have hres : p.get_frames n = (p.base_frame_no + Nat.find h, commitPool p (Nat.find h) n) :=
      h1 h
    have hc1 : Nat.find h + n ≤ p.nframes := (Nat.find_spec h).1
    rw [hres]
    refine ⟨rfl, ?_, ?_, ?_, rfl, ?_⟩
    · show get_state_bm (markUsedLoop
        (set_state_bm p.bitmap (Nat.find h) FrameState.HoS)
        (Nat.find h + 1) (n - 1)) (Nat.find h) = FrameState.HoS
      rw [get_state_markUsedLoop_out (n - 1) _ _ _ (Or.inl (by omega))]
      exact get_state_set_state_self _ _ _ (by omega)
    · intro j hj1 hj2
      show get_state_bm (markUsedLoop
        (set_state_bm p.bitmap (Nat.find h) FrameState.HoS)
        (Nat.find h + 1) (n - 1)) (Nat.find h + j) = FrameState.Used
      exact get_state_markUsedLoop_in (n - 1) _ _ _ (by omega) (by omega)
        (by rw [set_state_bm_length]; omega)
    · intro j hj
      show get_state_bm (markUsedLoop
        (set_state_bm p.bitmap (Nat.find h) FrameState.HoS)
        (Nat.find h + 1) (n - 1)) j = get_state_bm p.bitmap j
      rw [get_state_markUsedLoop_out (n - 1) _ _ _ (by omega)]
      exact get_state_set_state_ne _ _ _ _ (by omega)
    · intro hle hlt
      show u64sub p.nFreeFrames n = p.nFreeFrames - n
      exact u64sub_eq_sub _ _ hle hlt

theorem exampleRunExists : ∃ c, freeRun examplePoolA c 4 :=
  ⟨0, by decide⟩

/-- Witness for C5: `get_frames(4)` on the all-free scenario pool returns
`base_frame + (lowest run start)` and performs the `n_free` decrement. -/
theorem get_frames_first_fit_witness :
    (examplePoolA.get_frames 4).1 =
      examplePoolA.base_frame_no + Nat.find exampleRunExists ∧
    (examplePoolA.get_frames 4).2.get_state (Nat.find exampleRunExists) =
      FrameState.HoS ∧
    (examplePoolA.get_frames 4).2.nFreeFrames =
      u64sub examplePoolA.nFreeFrames 4 :=
  ⟨((get_frames_first_fit examplePoolA 4 (by decide) (by decide)).2
      exampleRunExists).1,
   ((get_frames_first_fit examplePoolA 4 (by decide) (by decide)).2
      exampleRunExists).2.1,
   ((get_frames_first_fit examplePoolA 4 (by decide) (by decide)).2
      exampleRunExists).2.2.2.2.1⟩

/-- C10: `get_frames(0)` returns the sentinel `0` and changes nothing: the
free-run counter is incremented before the comparison with the request, so
it never equals `0`. -/
theorem get_frames_zero_request_noop (p : ContFramePool) :
    p.get_frames 0 = (0, p) :=
  getFramesGo_zero_request p.nframes p 0 0 0

/-- C3 counterexample: constructing the self-hosted scenario pool
(`base = 200`, `n = 8`, `info_frame = 0`) puts frame index 0 in state `Used`,
not `HoS` as the claim states (the constructor writes
`set_state(0, FrameState::Used)`). -/
theorem construct_self_hosted_counterexample :
    (ContFramePool.construct 200 8 0 [255, 255]).get_state 0 =
      FrameState.Used ∧
    ¬ (ContFramePool.construct 200 8 0 [255, 255]).get_state 0 =
      FrameState.HoS := by
  decide

/-- C3 (amended): after constructing a self-hosted pool (`info_frame = 0`)
with `n_frames ≥ 1`, frame index 0 is in state `Used` (not `HoS`), all other
indices are `Free`, and `n_free = n_frames - 1`. -/
theorem construct_self_hosted_spec (base n : Nat) (initMem : List Nat)
    (hn : 1 ≤ n) (hcap : n ≤ FRAME_SIZE * 4) (hlen : n ≤ 4 * initMem.length) :
    (ContFramePool.construct base n 0 initMem).get_state 0 =
      FrameState.Used ∧
    (∀ i, 1 ≤ i → i < n →
      (ContFramePool.construct base n 0 initMem).get_state i =
        FrameState.Free) ∧
    (ContFramePool.construct base n 0 initMem).nFreeFrames = n - 1 := by
  refine ⟨?_, ?_, ?_⟩
  · show get_state_bm (set_state_bm (initFreeLoop initMem n) 0 FrameState.Used)
      0 = FrameState.Used
    exact get_state_set_state_self _ _ _ (by rw [initFreeLoop_length]; omega)
  · intro i h1 h2
    show get_state_bm (set_state_bm (initFreeLoop initMem n) 0 FrameState.Used)
      i = FrameState.Free
    rw [get_state_set_state_ne _ _ _ _ (by omega)]
    exact get_state_initFreeLoop n initMem i (by omega) (by omega)
  · show u64sub n 1 = n - 1
    exact u64sub_eq_sub n 1 hn
      (lt_of_le_of_lt hcap (by norm_num [FRAME_SIZE, U64]))

/-- Witness for the amended C3 at the concrete scenario pool. -/
theorem construct_self_hosted_spec_witness :
    (ContFramePool.construct 200 8 0 [255, 255]).get_state 0 =
      FrameState.Used ∧
    (ContFramePool.construct 200 8 0 [255, 255]).get_state 3 =
      FrameState.Free ∧
    (ContFramePool.construct 200 8 0 [255, 255]).nFreeFrames = 8 - 1 :=
  ⟨(construct_self_hosted_spec 200 8 [255, 255] (by decide) (by decide)
      (by decide)).1,
   (construct_self_hosted_spec 200 8 [255, 255] (by decide) (by decide)
      (by decide)).2.1 3 (by decide) (by decide),
   (construct_self_hosted_spec 200 8 [255, 255] (by decide) (by decide)
      (by decide)).2.2⟩

/-- C9: the codec obeys the 2-bit encoding: `set_state` never introduces the
bit pattern `11` into any 2-bit slot (a slot holds `11` afterwards only if it
already held `11` before, and the written slot itself holds the encoding of
the written state, which is `00`, `01` or `10`), and `get_state` decodes the
pattern `11` as `Free`. -/
theorem codec_no_eleven :
    (∀ bm fno s fno2,
      rawBits (set_state_bm bm fno s) fno2 = 3 → rawBits bm fno2 = 3) ∧
    (∀ bm fno, rawBits bm fno = 3 →
      get_state_bm bm fno = FrameState.Free) := by
  constructor
  · exact fun bm fno s fno2 => rawBits_set_state_three bm fno fno2 s
  · intro bm fno h3
    unfold get_state_bm
    rw [h3]
    rfl

/-- C7: when the registry routes `release_frames(first)` to a pool (the
first registered pool owning `first`), the assertion primitive fires (result
`none`) exactly when that pool's state at `first - base_frame` is not
`HoS`; equivalently the call completes without assertion exactly when the
routed frame is `HoS`. -/
theorem release_frames_assert_iff (s : AllocState) (first i : Nat)
    (pool : ContFramePool)
    (hidx : findPoolIdx s.frame_pools first = some i)
    (hpool : s.frame_pools[i]? = some pool) :
    (release_frames s first = none ↔
      ¬ pool.get_state (first - pool.base_frame_no) = FrameState.HoS) := by
  unfold release_frames
  rw [hidx]
  simp only []
  rw [hpool]
  by_cases hst : pool.get_state (first - pool.base_frame_no) = FrameState.HoS
  · simp [hst]
  · simp [hst]

/-- Witness for C7: releasing frame 101 of the scenario pool (state `Used`,
not `HoS`) makes the assertion fire. -/
theorem release_frames_assert_iff_witness :
    release_frames { frame_pools := [examplePoolA4] } 101 = none :=
  (release_frames_assert_iff { frame_pools := [examplePoolA4] } 101 0
    examplePoolA4 (by decide) (by decide)).mpr (by decide)

/-- C8: `release_frames(first)` when no registered pool satisfies
`base_frame ≤ first < base_frame + n_frames` is a no-op: the state is
returned unchanged and no assertion fires. -/
theorem release_frames_unknown_noop (s : AllocState) (first : Nat)
    (h : ∀ pool ∈ s.frame_pools,
      ¬ (pool.base_frame_no ≤ first ∧
          first < pool.base_frame_no + pool.nframes)) :
    release_frames s first = some s := by
  have hnone : findPoolIdx s.frame_pools first = none := by
    unfold findPoolIdx
    rw [List.findIdx?_eq_none_iff]
    intro x hx
    simpa using h x hx
  unfold release_frames
  rw [hnone]

/-- Witness for C8: releasing frame 100 when the only registered pool covers
`[200, 208)` changes nothing. -/
theorem release_frames_unknown_noop_witness :
    release_frames { frame_pools := [exampleSelfHosted] } 100 =
      some { frame_pools := [exampleSelfHosted] } :=
  release_frames_unknown_noop { frame_pools := [exampleSelfHosted] } 100
    (by decide)

/-- C1 fails on the code: `mark_inaccessible` updates the bitmap but never
decrements `nFreeFrames`, so in the reachable state after
`mark_inaccessible(204, 2)` on the freshly constructed self-hosted pool the
counter still reads 7 while only 5 slots are `Free`. -/
theorem nfree_invariant_broken :
    countFree exampleSelfHosted = 7 ∧
    exampleSelfHosted.nFreeFrames = 7 ∧
    countFree (exampleSelfHosted.mark_inaccessible 204 2) = 5 ∧
    (exampleSelfHosted.mark_inaccessible 204 2).nFreeFrames = 7 := by
  decide

/-- C2 fails on the code: after `get_frames(4)` returns head frame 100,
`release_frames(100)` restores the bitmap to its pre-call bytes but leaves
`nFreeFrames` at 12 (the release path never increments it), not at the
pre-call value 16. -/
theorem get_release_nfree_not_restored :
    (examplePoolA.get_frames 4).1 = 100 ∧
    examplePoolA.bitmap = [0, 0, 0, 0] ∧
    examplePoolA.nFreeFrames = 16 ∧
    release_frames { frame_pools := [examplePoolA4] } 100 =
      some { frame_pools :=
        [ContFramePool.mk 100 16 99 [0, 0, 0, 0] 12] } := by
  decide

/-- C4 fails on the code: `mark_inaccessible(110, 3)` on the scenario pool
sets frame 110 (`HoS`) and 111–112 (`Used`) and leaves neighbours `Free`,
but `n_free` stays at 16 instead of decreasing by 3 to 13 (the `Free` count
does drop to 13). -/
theorem mark_inaccessible_no_nfree_decrement :
    (examplePoolA.mark_inaccessible 110 3).get_state 10 = FrameState.HoS ∧
    (examplePoolA.mark_inaccessible 110 3).get_state 11 = FrameState.Used ∧
    (examplePoolA.mark_inaccessible 110 3).get_state 12 = FrameState.Used ∧
    (examplePoolA.mark_inaccessible 110 3).get_state 9 = FrameState.Free ∧
    (examplePoolA.mark_inaccessible 110 3).get_state 13 = FrameState.Free ∧
    countFree (examplePoolA.mark_inaccessible 110 3) = 13 ∧
    (examplePoolA.mark_inaccessible 110 3).nFreeFrames = 16 ∧
    examplePoolA.nFreeFrames = 16 := by
  decide

/-- C6 fails on the code: the registry is the 100-entry array
`frame_pools[100]`, but the constructor appends with no capacity check: with
100 pools registered it writes at index 100 (one past the last valid index,
`registryCapacity - 1`) and makes the count 101; nothing aborts. -/
theorem registry_append_unchecked :
    n_frame_pools exampleFullRegistry = registryCapacity ∧
    registryWriteIndex exampleFullRegistry = registryCapacity ∧
    n_frame_pools (constructGlobal exampleFullRegistry 300 8 0 [255, 255]) =
      registryCapacity + 1 := by
  decide

end MP2
